import Mathlib

/-!
Verification of the stdio-to-SSE proxy (src/proxy.js).

The proxy bridges newline-delimited JSON-RPC on stdin/stdout to an SSE
session.  The definitions below are a shallow embedding of the functions in
src/proxy.js: strings are modelled as Lean strings (lists of characters),
the mutable globals (sessionId, the SSE parser's buffer and currentEvent)
become explicit state records, and the I/O effects (stdout writes, stderr
diagnostics, HTTP requests) become explicit output-event lists.
-/

/-! ## JavaScript string helpers

Models of the JavaScript string methods used by src/proxy.js
(startsWith, slice, substring, trim), defined over the character list so
that they evaluate by kernel reduction.  -/

/-- ASCII whitespace recognised by the model of JavaScript trim. -/
def isJsWs (c : Char) : Bool :=
  c = ' ' || c = '\t' || c = '\n' || c = '\r' || c = '\x0b' || c = '\x0c'

/-- Model of JavaScript s.trim (restricted to ASCII whitespace). -/
def jsTrim (s : String) : String :=
  ⟨((s.data.dropWhile isJsWs).reverse.dropWhile isJsWs).reverse⟩

/-- Model of JavaScript s.slice n (for the ASCII strings the proxy handles,
UTF-16 positions coincide with character positions). -/
def jsSlice (s : String) (n : Nat) : String :=
  ⟨s.data.drop n⟩

/-- Model of JavaScript s.substring 0 n. -/
def jsSubstr (s : String) (n : Nat) : String :=
  ⟨s.data.take n⟩

/-- Model of JavaScript s.startsWith pat. -/
def jsStartsWith (s pat : String) : Bool :=
  pat.data.isPrefixOf s.data

/-! ## JSON values

Model of the JSON data handled by the proxy.  `JSON.parse` and
`JSON.stringify` are Node builtins, not repository code; they are modelled
here restricted to the fragment the proxy's messages use: null, booleans,
integer numbers, strings with the basic escapes, arrays and objects
(object member order is preserved, as JavaScript does). -/

inductive Json where
  | null : Json
  | bool : Bool → Json
  | num : Int → Json
  | str : String → Json
  | arr : List Json → Json
  | obj : List (String × Json) → Json

/-- JavaScript truthiness of a JSON value (used by the dispatcher's
`parsedMessage.id || null` at src/proxy.js:198). -/
def jsTruthy : Json → Bool
  | Json.null => false
  | Json.bool b => b
  | Json.num n => n != 0
  | Json.str s => s != ""
  | Json.arr _ => true
  | Json.obj _ => true

/-- Member access m.id on a parsed JSON value: an object's field when
present, otherwise JavaScript's undefined (modelled as none). -/
def jsonGet (m : Json) (key : String) : Option Json :=
  match m with
  | Json.obj fs => fs.lookup key
  | _ => none

/-! ### JSON parsing (model of the JSON.parse builtin) -/

/-- JSON whitespace skipped between tokens. -/
def isJsonWs (c : Char) : Bool :=
  c = ' ' || c = '\t' || c = '\n' || c = '\r'

/-- Drop leading JSON whitespace. -/
def skipWs : List Char → List Char
  | [] => []
  | c :: cs => if isJsonWs c then skipWs cs else c :: cs

/-- The character translated by a JSON string escape sequence. -/
def escapeOf (c : Char) : Option Char :=
  if c = '"' then some '"'
  else if c = '\\' then some '\\'
  else if c = '/' then some '/'
  else if c = 'n' then some '\n'
  else if c = 't' then some '\t'
  else if c = 'r' then some '\r'
  else if c = 'b' then some (Char.ofNat 8)
  else if c = 'f' then some (Char.ofNat 12)
  else none

/-- Parse the body of a JSON string after the opening quote, returning the
decoded characters and the rest of the input. -/
def parseStrBody : List Char → Option (List Char × List Char)
  | [] => none
  | '"' :: rest => some ([], rest)
  | '\\' :: rest =>
    match rest with
    | [] => none
    | e :: rest2 =>
      match escapeOf e with
      | none => none
      | some c =>
        match parseStrBody rest2 with
        | none => none
        | some (s, r) => some (c :: s, r)
  | c :: rest =>
    match parseStrBody rest with
    | none => none
    | some (s, r) => some (c :: s, r)

/-- Opening curly brace. -/
def openBrace : Char := Char.ofNat 123

/-- Closing curly brace. -/
def closeBrace : Char := Char.ofNat 125

/-- Parse a JSON number (integer fragment: an optional minus sign and
digits; a fraction or exponent makes the model reject). -/
def parseNum (cs : List Char) : Option (Json × List Char) :=
  let p := match cs with
    | '-' :: r => (true, r)
    | _ => (false, cs)
  let ds := p.2.takeWhile Char.isDigit
  let rest := p.2.dropWhile Char.isDigit
  if ds.isEmpty then none
  else
    match rest with
    | '.' :: _ => none
    | 'e' :: _ => none
    | 'E' :: _ => none
    | _ =>
      let n : Nat := ds.foldl (fun acc c => acc * 10 + (c.toNat - 48)) 0
      some (Json.num (if p.1 then -(n : Int) else (n : Int)), rest)

mutual

/-- Parse one JSON value; the fuel only bounds nesting depth. -/
def parseVal : Nat → List Char → Option (Json × List Char)
  | 0, _ => none
  | Nat.succ fuel, input =>
    match skipWs input with
    | [] => none
    | c :: rest =>
      if c = '"' then
        match parseStrBody rest with
        | none => none
        | some (s, r) => some (Json.str s.asString, r)
      else if c = openBrace then
        match skipWs rest with
        | [] => none
        | c1 :: r1 =>
          if c1 = closeBrace then some (Json.obj [], r1)
          else
            match parseMembers fuel (c1 :: r1) with
            | none => none
            | some (fs, r2) => some (Json.obj fs, r2)
      else if c = '[' then
        match skipWs rest with
        | [] => none
        | c1 :: r1 =>
          if c1 = ']' then some (Json.arr [], r1)
          else
            match parseElems fuel (c1 :: r1) with
            | none => none
            | some (es, r2) => some (Json.arr es, r2)
      else if c = 'n' then
        match rest with
        | 'u' :: 'l' :: 'l' :: r => some (Json.null, r)
        | _ => none
      else if c = 't' then
        match rest with
        | 'r' :: 'u' :: 'e' :: r => some (Json.bool true, r)
        | _ => none
      else if c = 'f' then
        match rest with
        | 'a' :: 'l' :: 's' :: 'e' :: r => some (Json.bool false, r)
        | _ => none
      else parseNum (c :: rest)

/-- Parse one or more comma-separated object members up to the closing
brace. -/
def parseMembers : Nat → List Char → Option (List (String × Json) × List Char)
  | 0, _ => none
  | Nat.succ fuel, cs =>
    match skipWs cs with
    | [] => none
    | c :: rest =>
      if c = '"' then
        match parseStrBody rest with
        | none => none
        | some (key, r1) =>
          match skipWs r1 with
          | ':' :: r2 =>
            match parseVal fuel r2 with
            | none => none
            | some (v, r3) =>
              match skipWs r3 with
              | [] => none
              | c2 :: r4 =>
                if c2 = ',' then
                  match parseMembers fuel r4 with
                  | none => none
                  | some (fs, r5) => some ((key.asString, v) :: fs, r5)
                else if c2 = closeBrace then
                  some ([(key.asString, v)], r4)
                else none
          | _ => none
      else none

/-- Parse one or more comma-separated array elements up to the closing
bracket. -/
def parseElems : Nat → List Char → Option (List Json × List Char)
  | 0, _ => none
  | Nat.succ fuel, cs =>
    match parseVal fuel cs with
    | none => none
    | some (v, r1) =>
      match skipWs r1 with
      | [] => none
      | c :: r2 =>
        if c = ',' then
          match parseElems fuel r2 with
          | none => none
          | some (es, r3) => some (v :: es, r3)
        else if c = ']' then
          some ([v], r2)
        else none

end

/-- Model of JSON.parse: parse a complete JSON text, requiring only
whitespace to remain. -/
def jsonParse (s : String) : Option Json :=
  match parseVal (s.data.length + 1) s.data with
  | some (v, rest) => if (skipWs rest).isEmpty then some v else none
  | none => none

/-! ### JSON serialization (model of the JSON.stringify builtin) -/

/-- Hexadecimal digit character. -/
def hexDigit (n : Nat) : Char :=
  if n < 10 then Char.ofNat (48 + n) else Char.ofNat (87 + (n - 10))

/-- Escape one character for a JSON string literal. -/
def escapeChar (c : Char) : List Char :=
  if c = '"' then ['\\', '"']
  else if c = '\\' then ['\\', '\\']
  else if c = '\n' then ['\\', 'n']
  else if c = '\r' then ['\\', 'r']
  else if c = '\t' then ['\\', 't']
  else if c = Char.ofNat 8 then ['\\', 'b']
  else if c = Char.ofNat 12 then ['\\', 'f']
  else if c.toNat < 32 then
    ['\\', 'u', '0', '0', hexDigit (c.toNat / 16), hexDigit (c.toNat % 16)]
  else [c]

/-- Serialize a string as a quoted JSON string literal. -/
def quoteStr (s : String) : String :=
  ⟨'"' :: (s.data.flatMap escapeChar) ++ ['"']⟩

mutual

/-- Model of JSON.stringify (compact form, no spacing), restricted to the
fragment of Json above; member order is preserved. -/
def jsonStringify : Json → String
  | Json.null => "null"
  | Json.bool true => "true"
  | Json.bool false => "false"
  | Json.num n => toString n
  | Json.str s => quoteStr s
  | Json.arr es => "[" ++ stringifyElems es ++ "]"
  | Json.obj fs => ⟨[openBrace]⟩ ++ stringifyMembers fs ++ ⟨[closeBrace]⟩

/-- Comma-separated serialization of array elements. -/
def stringifyElems : List Json → String
  | [] => ""
  | [e] => jsonStringify e
  | e :: es => jsonStringify e ++ "," ++ stringifyElems es

/-- Comma-separated serialization of object members. -/
def stringifyMembers : List (String × Json) → String
  | [] => ""
  | [kv] => quoteStr kv.1 ++ ":" ++ jsonStringify kv.2
  | kv :: fs => quoteStr kv.1 ++ ":" ++ jsonStringify kv.2 ++ "," ++ stringifyMembers fs

end

/-! ## URL query-parameter extraction

Model of the WHATWG URL builtin as used at src/proxy.js:117-118:
`new URL(data, base).searchParams.get('sessionId')`.  The base URL carries
no query, so the resolved URL's query is the part of `data` after its
first question mark (up to a fragment); `searchParams.get` returns the
first parameter with the given name, its value being everything after the
first equals sign (percent-decoding is not modelled; the proxy's session
ids do not use it). -/

/-- Split a character list on a separator character, keeping empty
segments (like JavaScript's split). -/
def splitCh (sep : Char) : List Char → List (List Char)
  | [] => [[]]
  | c :: rest =>
    let r := splitCh sep rest
    if c = sep then [] :: r
    else
      match r with
      | [] => [[c]]
      | l :: ls => (c :: l) :: ls

/-- The characters after the first question mark, if any. -/
def afterQuestion : List Char → Option (List Char)
  | [] => none
  | '?' :: rest => some rest
  | _ :: rest => afterQuestion rest

/-- The characters before the first hash sign. -/
def beforeHash : List Char → List Char
  | [] => []
  | '#' :: _ => []
  | c :: rest => c :: beforeHash rest

/-- Decompose one query parameter into name and value. -/
def paramOf (p : List Char) : String × String :=
  match splitCh '=' p with
  | [] => ("", "")
  | n :: rest => (n.asString, (List.intercalate ['='] rest).asString)

/-- Model of url.searchParams.get: first parameter with the given name. -/
def searchParamsGet (query : List Char) (name : String) : Option String :=
  (((splitCh '&' query).map paramOf).find? (fun p => p.1 = name)).map (fun p => p.2)

/-- The sessionId query parameter of an endpoint event's data URL
(src/proxy.js:117-118); none models JavaScript's null. -/
def extractSessionId (data : String) : Option String :=
  match afterQuestion data.data with
  | none => none
  | some rest => searchParamsGet (beforeHash rest) "sessionId"

/-! ## The SSE stream handler (src/proxy.js:101-146)

The res.on('data') callback keeps two local mutable variables, `buffer`
and `currentEvent`, and writes the module global `sessionId`.  `buffer`
is the trailing partial line; `currentEvent` and `sessionId` form the
line-processing state below.  The callback's effects are modelled as an
output-event list. -/

/-- State read and written by the per-line processing in the res.on('data')
handler: the pending event type (null modelled as none) and the module
global sessionId. -/
structure LineState where
  currentEvent : Option String
  sessionId : Option String
deriving DecidableEq

/-- Observable effects of the res.on('data') handler: a stdout write of a
relayed message, the parse-failure diagnostic (src/proxy.js:136, logging
the first 50 characters of the payload), the session-established
diagnostic, and the connection promise's resolution. -/
inductive OutEvent where
  | stdoutWrite : String → OutEvent
  | logMalformed : String → OutEvent
  | logSession : Option String → OutEvent
  | resolve : OutEvent
deriving DecidableEq

/-- A JavaScript string-or-null is falsy when null or empty. -/
def jsFalsyStr : Option String → Bool
  | none => true
  | some s => s = ""

/-- One iteration of the for-loop over complete lines at
src/proxy.js:109-145. -/
def handleLine (st : LineState) (line : String) : LineState × List OutEvent :=
  if jsStartsWith line ("event: ") then
    ({ st with currentEvent := some (jsTrim (jsSlice line 7)) }, [])
  else if jsStartsWith line ("data: ") then
    let data := jsSlice line 6
    if st.currentEvent = some ("endpoint") then
      let sid := extractSessionId data
      ({ currentEvent := none, sessionId := sid },
       [OutEvent.logSession sid, OutEvent.resolve])
    else
      let out :=
        if st.currentEvent = some ("message") || jsFalsyStr st.currentEvent then
          if data = "[DONE]" then []
          else
            match jsonParse data with
            | some message => [OutEvent.stdoutWrite (jsonStringify message ++ "\n")]
            | none => [OutEvent.logMalformed (jsSubstr data 50)]
        else []
      ({ st with currentEvent := none }, out)
  else if line = "" then
    ({ st with currentEvent := none }, [])
  else
    (st, [])

/-- Process a list of complete lines in order, accumulating effects. -/
def processLines : LineState → List String → LineState × List OutEvent
  | st, [] => (st, [])
  | st, l :: ls =>
    let r1 := handleLine st l
    let r2 := processLines r1.1 ls
    (r2.1, r1.2 ++ r2.2)

/-- Split a character list into its complete lines (the segments before
each line feed) and the trailing partial line, mirroring
`lines = buffer.split('\n'); buffer = lines.pop()` at
src/proxy.js:106-107. -/
def splitLinesSSE : List Char → List (List Char) × List Char
  | [] => ([], [])
  | c :: rest =>
    let p := splitLinesSSE rest
    if c = '\n' then ([] :: p.1, p.2)
    else
      match p.1 with
      | [] => ([], c :: p.2)
      | l :: ls => ((c :: l) :: ls, p.2)

/-- Full state of the SSE stream handler: the partial-line buffer plus the
line-processing state. -/
structure SSEState where
  buffer : List Char
  ls : LineState
deriving DecidableEq

/-- One invocation of the res.on('data') callback (src/proxy.js:104-146)
on a received chunk: append the chunk to the buffer, split on line feeds,
retain the trailing partial line, and process every complete line. -/
def feedChunk (st : SSEState) (chunk : String) : SSEState × List OutEvent :=
  let p := splitLinesSSE (st.buffer ++ chunk.data)
  let r := processLines st.ls (p.1.map List.asString)
  (⟨p.2, r.1⟩, r.2)

/-- Feed a sequence of chunks one at a time, accumulating effects. -/
def feedChunks : SSEState → List String → SSEState × List OutEvent
  | st, [] => (st, [])
  | st, c :: cs =>
    let r1 := feedChunk st c
    let r2 := feedChunks r1.1 cs
    (r2.1, r1.2 ++ r2.2)

/-- Concatenation of a chunk sequence into a single chunk. -/
def concatChunks : List String → String
  | [] => ""
  | c :: cs => c ++ concatChunks cs

/-- The res.on('end') handler (src/proxy.js:148-152): the session id is
invalidated (the sseConnection global, also cleared there, holds no
protocol state and is not modelled). -/
def onStreamEnd (st : LineState) : LineState :=
  { st with sessionId := none }

/-- The sseRequest.on('error') handler (src/proxy.js:155-160): the session
id is invalidated and the connection promise rejected. -/
def onStreamError (st : LineState) : LineState :=
  { st with sessionId := none }

/-! ## The outbound sender (src/proxy.js:28-72) -/

/-- What sendMessage does before any response arrives: reject immediately
with the no-active-session error (performing no HTTP request), or issue
one HTTP POST with the given path, Content-Type header, Content-Length
header and body. -/
inductive SendAction where
  | rejectNoSession : SendAction
  | httpPost : String → String → Nat → String → SendAction
deriving DecidableEq

/-- sendMessage (src/proxy.js:28-72) up to the point the request is
written: the `if (!sessionId)` guard rejects on a null (or falsy empty)
session id before any network call; otherwise the message is serialized
and POSTed to pathname?sessionId=sid with Content-Type application/json
and the body's UTF-8 byte length (hostname and port, taken from the
configured URL, are not modelled). -/
def sendMessage (pathname : String) (sessionId : Option String) (message : Json) : SendAction :=
  if jsFalsyStr sessionId then SendAction.rejectNoSession
  else
    let postData := jsonStringify message
    SendAction.httpPost (pathname ++ "?sessionId=" ++ sessionId.getD "")
      ("application/json") postData.utf8ByteSize postData

/-- Resolution of sendMessage's promise from the response
(src/proxy.js:55-62): resolve on any 2xx status, otherwise reject with
the status and accumulated body. -/
def sendResponseResult (statusCode : Nat) (data : String) : Except String Unit :=
  if 200 ≤ statusCode ∧ statusCode < 300 then Except.ok ()
  else Except.error ("HTTP " ++ toString statusCode ++ ": " ++ data)

/-! ## The stdin dispatcher (src/proxy.js:182-209)

The rl.on('line') handler: skip blank lines, parse the line, await the
send, and on any failure log and emit a JSON-RPC error envelope built by
re-parsing the line (when even the re-parse fails, nothing is written).
The handler's awaited send resolves or rejects depending on the network;
that environment choice is the SendOutcome parameter. -/

/-- Resolution of the awaited sendMessage call as the dispatcher observes
it: the environment's outcome for an issued request, or the immediate
no-active-session rejection (src/proxy.js:30-33). -/
inductive SendOutcome where
  | resolved : SendOutcome
  | rejected : String → SendOutcome
deriving DecidableEq

/-- Outcome of `await sendMessage(message)` for a given session id and
network outcome: the guard's rejection carries the Error message
'No active session'. -/
def awaitSend (sessionId : Option String) (net : SendOutcome) : SendOutcome :=
  if jsFalsyStr sessionId then SendOutcome.rejected ("No active session")
  else net

/-- Observable effects of the rl.on('line') handler: a stdout write and a
stderr diagnostic. -/
inductive DOut where
  | out : String → DOut
  | log : String → DOut
deriving DecidableEq

/-- Whether a dispatcher effect is a stdout write. -/
def DOut.isOut : DOut → Bool
  | DOut.out _ => true
  | DOut.log _ => false

/-- The error envelope built at src/proxy.js:196-203: jsonrpc 2.0, the
re-parsed message's id if truthy else null, and the fixed internal-error
code -32603 with the failure's message. -/
def errorEnvelope (id : Json) (errMsg : String) : Json :=
  Json.obj [("jsonrpc", Json.str "2.0"), ("id", id),
            ("error", Json.obj [("code", Json.num (-32603)), ("message", Json.str errMsg)])]

/-- The envelope's id field: `parsedMessage.id || null` (src/proxy.js:198)
— the message's id member when truthy, otherwise null (also when the id is
absent or the message is not an object). -/
def messageIdOrNull (m : Json) : Json :=
  match jsonGet m "id" with
  | some v => if jsTruthy v then v else Json.null
  | none => Json.null

/-- One complete run of the rl.on('line') handler (src/proxy.js:182-209)
on a single input line, given the network's outcome for the send.  A line
whose JSON.parse fails reaches the catch block, where the re-parse fails
again and the inner catch writes nothing (the log text of the platform
parse error is abbreviated). -/
def dispatchLine (sessionId : Option String) (net : SendOutcome) (line : String) : List DOut :=
  if jsTrim line = "" then []
  else
    match jsonParse line with
    | none => [DOut.log ("Error processing message")]
    | some _ =>
      match awaitSend sessionId net with
      | SendOutcome.resolved => []
      | SendOutcome.rejected e =>
        DOut.log ("Error processing message: " ++ e) ::
          (match jsonParse line with
           | some parsedMessage =>
             [DOut.out (jsonStringify (errorEnvelope (messageIdOrNull parsedMessage) e) ++ "\n")]
           | none => [])

/-- Dispatch a sequence of input lines in order, each with its network
outcome. -/
def dispatchLines (sessionId : Option String) : List (String × SendOutcome) → List DOut
  | [] => []
  | p :: rest => dispatchLine sessionId p.2 p.1 ++ dispatchLines sessionId rest

/-! ## Interleaving of line events and sends

Modelled from Node runtime semantics (not repository code): readline
emits one 'line' event synchronously for every complete line contained in
a received stdin chunk, and the async handler registered at
src/proxy.js:182 runs only up to its first await during each emission;
the awaited send's completion is delivered in a later event-loop turn, so
no completion can interleave with the burst of handler starts for one
chunk. -/

/-- Network-visible dispatch events: an HTTP POST leaving (with its body)
and its completion. -/
inductive DispatchEv where
  | sendStart : String → DispatchEv
  | sendComplete : String → DispatchEv
deriving DecidableEq

/-- The synchronous part of one rl.on('line') handler invocation: up to
the first await.  A blank line returns; an unparseable line runs its
catch synchronously; a parsed message calls sendMessage, which either
rejects without a network call or issues the POST, and the handler then
suspends at the await. -/
def handlerSyncPart (pathname : String) (sessionId : Option String) (line : String) :
    List DispatchEv :=
  if jsTrim line = "" then []
  else
    match jsonParse line with
    | none => []
    | some message =>
      match sendMessage pathname sessionId message with
      | SendAction.rejectNoSession => []
      | SendAction.httpPost _ _ _ body => [DispatchEv.sendStart body]

/-- The dispatch events produced synchronously while one stdin chunk's
complete lines are emitted by readline. -/
def chunkBurst (pathname : String) (sessionId : Option String) (chunk : String) :
    List DispatchEv :=
  ((splitLinesSSE chunk.data).1.map List.asString).flatMap (handlerSyncPart pathname sessionId)

/-- Running (current, maximum) count of in-flight sends along a dispatch
trace. -/
def inFlightStep : Nat × Nat → DispatchEv → Nat × Nat
  | (cur, mx), DispatchEv.sendStart _ => (cur + 1, max (cur + 1) mx)
  | (cur, mx), DispatchEv.sendComplete _ => (cur - 1, mx)

/-- Largest number of sends simultaneously in flight along a trace. -/
def maxInFlight (t : List DispatchEv) : Nat :=
  (t.foldl inFlightStep (0, 0)).2

/-! ## Byte-level chunk delivery

The res.on('data') callback receives Buffers and appends
`chunk.toString()` (src/proxy.js:105): each chunk is UTF-8 decoded
independently, so a multi-byte character split across two chunks is
garbled into U+FFFD replacement characters.  The decoder below models
buffer.toString('utf8') — a Node/V8 builtin, not repository code —
following the WHATWG UTF-8 decode algorithm in replacement mode: one
U+FFFD per maximal invalid subpart, decoding restarting at the offending
byte, and a sequence truncated by the end of the buffer also yielding a
replacement character. -/

/-- The Unicode replacement character emitted for invalid UTF-8. -/
def replChar : Char := Char.ofNat 0xFFFD

/-- Whether a byte is a UTF-8 continuation byte. -/
def isCont (b : Nat) : Bool := 0x80 ≤ b && b ≤ 0xBF

/-- Smallest second byte allowed after a three-byte lead. -/
def lo3 (b : Nat) : Nat := if b = 0xE0 then 0xA0 else 0x80

/-- Largest second byte allowed after a three-byte lead. -/
def hi3 (b : Nat) : Nat := if b = 0xED then 0x9F else 0xBF

/-- Smallest second byte allowed after a four-byte lead. -/
def lo4 (b : Nat) : Nat := if b = 0xF0 then 0x90 else 0x80

/-- Largest second byte allowed after a four-byte lead. -/
def hi4 (b : Nat) : Nat := if b = 0xF4 then 0x8F else 0xBF

/-- UTF-8 decoding with replacement of one buffer, as performed by each
chunk.toString() call. -/
def utf8DecodeList : List Nat → List Char
  | [] => []
  | b :: rest =>
    if b < 0x80 then Char.ofNat b :: utf8DecodeList rest
    else if b < 0xC2 then replChar :: utf8DecodeList rest
    else if b < 0xE0 then
      match rest with
      | [] => [replChar]
      | b2 :: rest2 =>
        if isCont b2 then
          Char.ofNat ((b - 0xC0) * 0x40 + (b2 - 0x80)) :: utf8DecodeList rest2
        else replChar :: utf8DecodeList (b2 :: rest2)
    else if b < 0xF0 then
      match rest with
      | [] => [replChar]
      | b2 :: rest2 =>
        if lo3 b ≤ b2 && b2 ≤ hi3 b then
          match rest2 with
          | [] => [replChar]
          | b3 :: rest3 =>
            if isCont b3 then
              Char.ofNat ((b - 0xE0) * 0x1000 + (b2 - 0x80) * 0x40 + (b3 - 0x80))
                :: utf8DecodeList rest3
            else replChar :: utf8DecodeList (b3 :: rest3)
        else replChar :: utf8DecodeList (b2 :: rest2)
    else if b < 0xF5 then
      match rest with
      | [] => [replChar]
      | b2 :: rest2 =>
        if lo4 b ≤ b2 && b2 ≤ hi4 b then
          match rest2 with
          | [] => [replChar]
          | b3 :: rest3 =>
            if isCont b3 then
              match rest3 with
              | [] => [replChar]
              | b4 :: rest4 =>
                if isCont b4 then
                  Char.ofNat ((b - 0xF0) * 0x40000 + (b2 - 0x80) * 0x1000
                      + (b3 - 0x80) * 0x40 + (b4 - 0x80)) :: utf8DecodeList rest4
                else replChar :: utf8DecodeList (b4 :: rest4)
            else replChar :: utf8DecodeList (b3 :: rest3)
        else replChar :: utf8DecodeList (b2 :: rest2)
    else replChar :: utf8DecodeList rest

/-- Model of chunk.toString() at src/proxy.js:105: decode one received
byte chunk, independently of every other chunk. -/
def utf8DecodeReplace (bytes : List Nat) : String :=
  ⟨utf8DecodeList bytes⟩

/-- One res.on('data') invocation on a raw byte chunk: per-chunk decode,
then the string-level handler. -/
def feedChunkBytes (st : SSEState) (chunk : List Nat) : SSEState × List OutEvent :=
  feedChunk st (utf8DecodeReplace chunk)

/-- Feed a sequence of raw byte chunks one at a time, each decoded
independently, accumulating effects. -/
def feedChunksBytes : SSEState → List (List Nat) → SSEState × List OutEvent
  | st, [] => (st, [])
  | st, c :: cs =>
    let r1 := feedChunkBytes st c
    let r2 := feedChunksBytes r1.1 cs
    (r2.1, r1.2 ++ r2.2)

/-- Concatenation of a byte-chunk sequence into a single byte chunk. -/
def concatBytes : List (List Nat) → List Nat
  | [] => []
  | c :: cs => c ++ concatBytes cs

/-- What the message-event branch at src/proxy.js:126-138 emits for a
non-sentinel payload: the re-serialized message on stdout when it parses,
otherwise the truncated-payload diagnostic. -/
def relayedOutput (d : String) : List OutEvent :=
  match jsonParse d with
  | some message => [OutEvent.stdoutWrite (jsonStringify message ++ "\n")]
  | none => [OutEvent.logMalformed (jsSubstr d 50)]

/-! ## Lemmas about the incremental line splitter -/

/-- Computation rule: a leading line feed closes an empty complete line. -/
theorem splitLinesSSE_cons_nl (rest : List Char) :
    splitLinesSSE ('\n' :: rest) = ([] :: (splitLinesSSE rest).1, (splitLinesSSE rest).2) := by
  simp [splitLinesSSE]

/-- Computation rule: a non-line-feed character joins the trailing partial
line when no complete line follows. -/
theorem splitLinesSSE_cons_nil (c : Char) (rest : List Char) (hc : c ≠ '\n')
    (h : (splitLinesSSE rest).1 = []) :
    splitLinesSSE (c :: rest) = ([], c :: (splitLinesSSE rest).2) := by
  rcases hr : splitLinesSSE rest with ⟨r1, r2⟩
  rw [hr] at h
  simp only at h
  subst h
  simp [splitLinesSSE, hr, hc]

/-- Computation rule: a non-line-feed character joins the first complete
line when one follows. -/
theorem splitLinesSSE_cons_cons (c : Char) (rest : List Char) (l : List Char)
    (ls : List (List Char)) (hc : c ≠ '\n') (h : (splitLinesSSE rest).1 = l :: ls) :
    splitLinesSSE (c :: rest) = ((c :: l) :: ls, (splitLinesSSE rest).2) := by
  rcases hr : splitLinesSSE rest with ⟨r1, r2⟩
  rw [hr] at h
  simp only at h
  subst h
  simp [splitLinesSSE, hr, hc]

/-- Splitting a concatenation: the first part's complete lines come out
unchanged, and its trailing partial line joins the second part. -/
theorem splitLinesSSE_append (a b : List Char) :
    splitLinesSSE (a ++ b)
      = ((splitLinesSSE a).1 ++ (splitLinesSSE ((splitLinesSSE a).2 ++ b)).1,
         (splitLinesSSE ((splitLinesSSE a).2 ++ b)).2) := by
  induction a with
  | nil => simp [splitLinesSSE]
  | cons c a ih =>
    rcases hA : splitLinesSSE a with ⟨A1, A2⟩
    rcases hB : splitLinesSSE (A2 ++ b) with ⟨B1, B2⟩
    have ih2 : splitLinesSSE (a ++ b) = (A1 ++ B1, B2) := by
      rw [ih, hA]
      simp only
      rw [hB]
    by_cases hc : c = '\n'
    · subst hc
      rw [List.cons_append, splitLinesSSE_cons_nl, splitLinesSSE_cons_nl, ih2, hA]
      simp [hB]
    · cases A1 with
      | nil =>
        have hre : splitLinesSSE (c :: a) = ([], c :: A2) := by
          have h := splitLinesSSE_cons_nil c a hc (by simp [hA])
          rw [hA] at h
          exact h
        rw [hre]
        simp only [List.nil_append, List.cons_append]
        cases B1 with
        | nil =>
          have h1 : splitLinesSSE (c :: (a ++ b)) = ([], c :: B2) := by
            have h := splitLinesSSE_cons_nil c (a ++ b) hc (by simp [ih2])
            rw [ih2] at h
            simpa using h
          have h2 : splitLinesSSE (c :: (A2 ++ b)) = ([], c :: B2) := by
            have h := splitLinesSSE_cons_nil c (A2 ++ b) hc (by simp [hB])
            rw [hB] at h
            exact h
          rw [h1, h2]
        | cons bl bls =>
          have h1 : splitLinesSSE (c :: (a ++ b)) = ((c :: bl) :: bls, B2) := by
            have h := splitLinesSSE_cons_cons c (a ++ b) bl bls hc (by simp [ih2])
            rw [ih2] at h
            simpa using h
          have h2 : splitLinesSSE (c :: (A2 ++ b)) = ((c :: bl) :: bls, B2) := by
            have h := splitLinesSSE_cons_cons c (A2 ++ b) bl bls hc (by simp [hB])
            rw [hB] at h
            exact h
          rw [h1, h2]
      | cons l ls =>
        have hre : splitLinesSSE (c :: a) = ((c :: l) :: ls, A2) := by
          have h := splitLinesSSE_cons_cons c a l ls hc (by simp [hA])
          rw [hA] at h
          exact h
        have h1 : splitLinesSSE (c :: (a ++ b)) = ((c :: l) :: (ls ++ B1), B2) := by
          have h := splitLinesSSE_cons_cons c (a ++ b) l (ls ++ B1) hc (by simp [ih2])
          rw [ih2] at h
          simpa using h
        rw [List.cons_append, h1, hre]
        simp [hB]

/-- A character list without line feeds yields no complete line. -/
theorem splitLinesSSE_of_noNL (l : List Char) (h : ∀ c ∈ l, c ≠ '\n') :
    splitLinesSSE l = ([], l) := by
  induction l with
  | nil => rfl
  | cons c cs ih =>
    have hc : c ≠ '\n' := h c (List.mem_cons_self c cs)
    have ihs : splitLinesSSE cs = ([], cs) := ih (fun x hx => h x (List.mem_cons_of_mem c hx))
    simp [splitLinesSSE, hc, ihs]

/-- The trailing partial line never contains a line feed. -/
theorem splitLinesSSE_rem_noNL (l : List Char) : ∀ c ∈ (splitLinesSSE l).2, c ≠ '\n' := by
  induction l with
  | nil => intro c hc; simp [splitLinesSSE] at hc
  | cons x xs ih =>
    intro c hc
    by_cases hx : x = '\n'
    · subst hx
      simp only [splitLinesSSE] at hc
      exact ih c hc
    · rcases hA : splitLinesSSE xs with ⟨A1, A2⟩
      cases A1 with
      | nil =>
        simp only [splitLinesSSE, hA, if_neg hx] at hc
        rcases List.mem_cons.mp hc with h1 | h2
        · subst h1; exact hx
        · exact ih c (by rw [hA]; exact h2)
      | cons l ls =>
        simp only [splitLinesSSE, hA, if_neg hx] at hc
        exact ih c (by rw [hA]; exact hc)

/-- The character data of a string concatenation. -/
theorem strData_append (a b : String) : (a ++ b).data = a.data ++ b.data := by
  cases a
  cases b
  rfl

/-- Processing a concatenation of line lists composes state and effects. -/
theorem processLines_append (st : LineState) (a b : List String) :
    processLines st (a ++ b)
      = ((processLines (processLines st a).1 b).1,
         (processLines st a).2 ++ (processLines (processLines st a).1 b).2) := by
  induction a generalizing st with
  | nil => simp [processLines]
  | cons l ls ih =>
    simp only [List.cons_append, processLines, List.append_eq]
    rw [ih]
    simp [List.append_assoc]

/-- Feeding the concatenation of two chunks equals feeding them one after
the other: same final state, concatenated effects. -/
theorem feedChunk_append (st : SSEState) (a b : String) :
    feedChunk st (a ++ b)
      = ((feedChunk (feedChunk st a).1 b).1,
         (feedChunk st a).2 ++ (feedChunk (feedChunk st a).1 b).2) := by
  rcases hS1 : splitLinesSSE (st.buffer ++ a.data) with ⟨L1, R1⟩
  rcases hS2 : splitLinesSSE (R1 ++ b.data) with ⟨L2, R2⟩
  have hsplit : splitLinesSSE (st.buffer ++ (a ++ b).data) = (L1 ++ L2, R2) := by
    rw [strData_append, ← List.append_assoc, splitLinesSSE_append, hS1]
    simp only
    rw [hS2]
  rcases hP1 : processLines st.ls (L1.map List.asString) with ⟨ls1, o1⟩
  have hfa : feedChunk st a = (⟨R1, ls1⟩, o1) := by
    simp only [feedChunk, hS1]
    rw [hP1]
  rcases hP2 : processLines ls1 (L2.map List.asString) with ⟨ls2, o2⟩
  have hfb : feedChunk (⟨R1, ls1⟩ : SSEState) b = (⟨R2, ls2⟩, o2) := by
    simp only [feedChunk, hS2]
    rw [hP2]
  have hP12 : processLines st.ls ((L1 ++ L2).map List.asString) = (ls2, o1 ++ o2) := by
    rw [List.map_append, processLines_append, hP1]
    simp only
    rw [hP2]
  have goalL : feedChunk st (a ++ b) = (⟨R2, ls2⟩, o1 ++ o2) := by
    simp only [feedChunk, hsplit]
    rw [hP12]
  rw [goalL]
  simp only [hfa, hfb]

/-- String-level chunking invariance, after the per-chunk byte decode:
feeding the handler a sequence of already-decoded chunks one at a time
yields the same final state and effect sequence as feeding their
concatenation as a single chunk, from any state whose buffer holds no
line feed (true initially and preserved by every feed). -/
theorem feedChunks_eq_feedChunk_concat (st : SSEState) (cs : List String)
    (hb : ∀ c ∈ st.buffer, c ≠ '\n') :
    feedChunks st cs = feedChunk st (concatChunks cs) := by
  induction cs generalizing st with
  | nil =>
    have h0 : splitLinesSSE st.buffer = ([], st.buffer) := splitLinesSSE_of_noNL st.buffer hb
    simp [feedChunks, feedChunk, concatChunks, h0, processLines]
  | cons c cs ih =>
    have hrem : ∀ x ∈ (feedChunk st c).1.buffer, x ≠ '\n' := by
      intro x hx
      have : (feedChunk st c).1.buffer = (splitLinesSSE (st.buffer ++ c.data)).2 := by
        simp [feedChunk]
      rw [this] at hx
      exact splitLinesSSE_rem_noNL _ x hx
    have : concatChunks (c :: cs) = c ++ concatChunks cs := rfl
    rw [this, feedChunk_append]
    simp only [feedChunks]
    rw [ih _ hrem]

/-! ## Lemmas about single-line handling -/

/-- A list is a prefix (by ==) of itself followed by anything. -/
theorem isPrefixOf_append_self (p l : List Char) : p.isPrefixOf (p ++ l) = true := by
  induction p with
  | nil => simp
  | cons a as ih => simp [List.isPrefixOf, ih]

/-- A constructed data line starts with the data prefix marker. -/
theorem jsStartsWith_data_self (d : String) : jsStartsWith ("data: " ++ d) ("data: ") = true := by
  unfold jsStartsWith
  rw [strData_append]
  exact isPrefixOf_append_self _ _

/-- A constructed data line does not start with the event marker. -/
theorem jsStartsWith_data_not_event (d : String) :
    jsStartsWith ("data: " ++ d) ("event: ") = false := by
  cases d
  rfl

/-- Dropping the data marker from a constructed data line returns the
payload. -/
theorem jsSlice_data (d : String) : jsSlice ("data: " ++ d) 6 = d := by
  cases d
  rfl

/-- An endpoint-event data line (src/proxy.js:116-123): the session id is
assigned from the payload URL's sessionId parameter, the session
diagnostic is logged, the connection promise resolved, and the pending
event type reset. -/
theorem handleLine_data_endpoint (st : LineState) (d : String)
    (h : st.currentEvent = some ("endpoint")) :
    handleLine st ("data: " ++ d)
      = ({ currentEvent := none, sessionId := extractSessionId d },
         [OutEvent.logSession (extractSessionId d), OutEvent.resolve]) := by
  simp only [handleLine, jsStartsWith_data_not_event, jsStartsWith_data_self, jsSlice_data,
    h, Bool.false_eq_true, if_false, if_true, ite_true, ite_false]

/-- A data line whose pending event type is not the endpoint event leaves
the session id unchanged and resets the pending event type. -/
theorem handleLine_data_not_endpoint (st : LineState) (d : String)
    (h : st.currentEvent ≠ some ("endpoint")) :
    (handleLine st ("data: " ++ d)).1 = { st with currentEvent := none } := by
  simp only [handleLine, jsStartsWith_data_not_event, jsStartsWith_data_self, jsSlice_data,
    Bool.false_eq_true, if_false, if_true, ite_true, ite_false]
  simp [h]

/-- A blank line resets the pending event type and emits nothing
(src/proxy.js:141-144). -/
theorem handleLine_blank (st : LineState) :
    handleLine st "" = ({ st with currentEvent := none }, []) := by
  simp [handleLine, jsStartsWith]

/-- A non-empty line that is neither an event nor a data line is ignored:
no state change, no effect (the for-loop at src/proxy.js:109-145 has no
branch for it). -/
theorem handleLine_other (st : LineState) (line : String)
    (h1 : jsStartsWith line ("event: ") = false)
    (h2 : jsStartsWith line ("data: ") = false)
    (h3 : line ≠ "") :
    handleLine st line = (st, []) := by
  simp [handleLine, h1, h2, h3]

/-- An event line sets the pending event type and leaves the session id
unchanged. -/
theorem handleLine_event (st : LineState) (line : String)
    (h1 : jsStartsWith line ("event: ") = true) :
    handleLine st line = ({ st with currentEvent := some (jsTrim (jsSlice line 7)) }, []) := by
  simp [handleLine, h1]

/-- A message or absent pending event type is not the endpoint event. -/
theorem not_endpoint_of_msg (st : LineState)
    (hmsg : st.currentEvent = some ("message") ∨ jsFalsyStr st.currentEvent = true) :
    st.currentEvent ≠ some ("endpoint") := by
  rcases hmsg with h | h
  · rw [h]
    simp
  · cases hs : st.currentEvent with
    | none => simp
    | some s =>
      rw [hs] at h
      simp only [jsFalsyStr, decide_eq_true_eq] at h
      subst h
      simp

/-- A message or absent pending event type satisfies the message-branch
condition at src/proxy.js:126. -/
theorem msg_cond_true (st : LineState)
    (hmsg : st.currentEvent = some ("message") ∨ jsFalsyStr st.currentEvent = true) :
    (decide (st.currentEvent = some ("message")) || jsFalsyStr st.currentEvent) = true := by
  rcases hmsg with h | h
  · simp [h]
  · simp [h]

/-- A non-sentinel data line under the message (or absent) pending event
type emits the relay output — the re-serialized message, or the
diagnostic when the payload does not parse — and resets the pending
event type (src/proxy.js:126-140). -/
theorem handleLine_data_message (st : LineState) (d : String)
    (hmsg : st.currentEvent = some ("message") ∨ jsFalsyStr st.currentEvent = true)
    (hdone : d ≠ "[DONE]") :
    handleLine st ("data: " ++ d) = ({ st with currentEvent := none }, relayedOutput d) := by
  have hne := not_endpoint_of_msg st hmsg
  have hcond := msg_cond_true st hmsg
  rcases hj : jsonParse d with _ | m
  · simp [handleLine, jsStartsWith_data_not_event, jsStartsWith_data_self, jsSlice_data,
      hne, hcond, hdone, relayedOutput, hj]
  · simp [handleLine, jsStartsWith_data_not_event, jsStartsWith_data_self, jsSlice_data,
      hne, hcond, hdone, relayedOutput, hj]

/-- The sentinel data line under the message (or absent) pending event
type is discarded without emission, resetting the pending event type
(src/proxy.js:127-130). -/
theorem handleLine_data_done (st : LineState)
    (hmsg : st.currentEvent = some ("message") ∨ jsFalsyStr st.currentEvent = true) :
    handleLine st ("data: " ++ "[DONE]") = ({ st with currentEvent := none }, []) := by
  have hne := not_endpoint_of_msg st hmsg
  have hcond := msg_cond_true st hmsg
  have e1 : jsStartsWith "data: [DONE]" ("event: ") = false := by decide
  have e2 : jsStartsWith "data: [DONE]" ("data: ") = true := by decide
  have e3 : jsSlice "data: [DONE]" 6 = "[DONE]" := by decide
  simp [handleLine, e1, e2, e3, hne, hcond]

/-- A data line under any other pending event type — neither endpoint,
nor message, nor absent or empty — emits nothing and resets the pending
event type (both ifs at src/proxy.js:116 and 126 are skipped; line 140
still runs). -/
theorem handleLine_data_other_event (st : LineState) (d : String)
    (hne : st.currentEvent ≠ some ("endpoint"))
    (hnm : st.currentEvent ≠ some ("message"))
    (hnf : jsFalsyStr st.currentEvent = false) :
    handleLine st ("data: " ++ d) = ({ st with currentEvent := none }, []) := by
  have hcond : (decide (st.currentEvent = some ("message")) || jsFalsyStr st.currentEvent)
      = false := by
    simp [hnm, hnf]
  simp [handleLine, jsStartsWith_data_not_event, jsStartsWith_data_self, jsSlice_data,
    hne, hcond]

/-! ## Claim theorems -/

/-- Claim C1, counterexample: on the local input line 'not json' — not
valid JSON — the dispatcher emits no error envelope at all on the output
stream, not exactly one with id null: the catch block re-parses the line,
the re-parse fails too, and the inner catch at src/proxy.js:205-207
writes nothing. -/
theorem malformed_line_envelope_counterexample :
    (dispatchLine none SendOutcome.resolved "not json").filter DOut.isOut = [] ∧
    ¬ ((dispatchLine none SendOutcome.resolved "not json").filter DOut.isOut).length = 1 := by
  decide

/-- Claim C1, amended: a local input line that is not valid JSON produces
no output at all on the output stream — only one diagnostic log entry —
the dispatcher does not throw past the dispatch boundary (the handler is
a total function), and the next line is still processed independently. -/
theorem malformed_line_logged_not_answered (sid : Option String) (net : SendOutcome)
    (line : String) (rest : List (String × SendOutcome))
    (hnb : jsTrim line ≠ "") (hbad : jsonParse line = none) :
    dispatchLine sid net line = [DOut.log ("Error processing message")] ∧
    (dispatchLine sid net line).filter DOut.isOut = [] ∧
    dispatchLines sid ((line, net) :: rest)
      = dispatchLine sid net line ++ dispatchLines sid rest := by
  have h1 : dispatchLine sid net line = [DOut.log ("Error processing message")] := by
    simp [dispatchLine, hnb, hbad]
  refine ⟨h1, ?_, rfl⟩
  rw [h1]
  rfl

/-- Claim C1, witness: the amended statement at the concrete line
'nonsense' followed by another line. -/
theorem malformed_line_logged_not_answered_witness :
    dispatchLine (some "abc") SendOutcome.resolved "nonsense"
      = [DOut.log ("Error processing message")] ∧
    (dispatchLine (some "abc") SendOutcome.resolved "nonsense").filter DOut.isOut = [] ∧
    dispatchLines (some "abc") [("nonsense", SendOutcome.resolved)]
      = dispatchLine (some "abc") SendOutcome.resolved "nonsense" ++
          dispatchLines (some "abc") [] :=
  malformed_line_logged_not_answered (some "abc") SendOutcome.resolved "nonsense" []
    (by decide) (by rfl)

/-- Claim C2 (confirmed): with no session id held, sendMessage rejects
with the no-active-session error before issuing any HTTP request, and in
particular the stream-end handler sets the session id absent, after which
every send so fails. -/
theorem send_without_session_rejects (pathname : String) (st : LineState) (msg : Json) :
    sendMessage pathname none msg = SendAction.rejectNoSession ∧
    (onStreamEnd st).sessionId = none ∧
    sendMessage pathname ((onStreamEnd st).sessionId) msg = SendAction.rejectNoSession :=
  ⟨rfl, rfl, rfl⟩

/-- Claim C3, counterexample: two valid JSON-RPC lines arriving in one
stdin chunk have both their sends started back-to-back during readline's
synchronous line-emission burst — two outbound sends are in flight
concurrently, refuting the claim that each line's send completes before
the next line's processing begins. -/
theorem concurrent_sends_counterexample :
    maxInFlight (chunkBurst "/sse" (some "abc123")
        "\x7b\"jsonrpc\":\"2.0\",\"id\":1,\"method\":\"ping\"\x7d\n\x7b\"jsonrpc\":\"2.0\",\"id\":2,\"method\":\"ping\"\x7d\n")
      = 2 ∧
    ¬ maxInFlight (chunkBurst "/sse" (some "abc123")
        "\x7b\"jsonrpc\":\"2.0\",\"id\":1,\"method\":\"ping\"\x7d\n\x7b\"jsonrpc\":\"2.0\",\"id\":2,\"method\":\"ping\"\x7d\n")
      ≤ 1 := by
  decide

/-- Per-line synchronous dispatch with an active session: exactly the
parseable non-blank lines start a send, whose body is the message's
serialization. -/
theorem handlerSyncPart_of_sid (pathname : String) (sid : String) (hsid : sid ≠ "")
    (l : String) :
    handlerSyncPart pathname (some sid) l
      = (if jsTrim l = "" then none
         else (jsonParse l).map (fun m => DispatchEv.sendStart (jsonStringify m))).toList := by
  by_cases hb : jsTrim l = ""
  · simp [handlerSyncPart, hb]
  · rcases hj : jsonParse l with _ | m
    · simp [handlerSyncPart, hb, hj]
    · simp [handlerSyncPart, hb, hj, sendMessage, jsFalsyStr, hsid]

/-- Claim C3, amended: within one chunk's synchronous burst, sends are
started in arrival order, exactly one per valid non-blank line; but a
line's send is not awaited before the next line's processing begins —
readline does not wait for the async handler — so the sends of lines
arriving together are concurrently in flight (see the counterexample). -/
theorem sends_started_in_arrival_order (pathname : String) (sid : String) (hsid : sid ≠ "")
    (chunk : String) :
    chunkBurst pathname (some sid) chunk
      = ((splitLinesSSE chunk.data).1.map List.asString).filterMap
          (fun l => if jsTrim l = "" then none
                    else (jsonParse l).map (fun m => DispatchEv.sendStart (jsonStringify m))) := by
  unfold chunkBurst
  generalize ((splitLinesSSE chunk.data).1.map List.asString) = ls
  induction ls with
  | nil => rfl
  | cons l ls ih =>
    rw [List.flatMap_cons, List.filterMap_cons, handlerSyncPart_of_sid pathname sid hsid l, ih]
    rcases hv : (if jsTrim l = "" then none
                 else (jsonParse l).map (fun m => DispatchEv.sendStart (jsonStringify m))) with _ | ev
    · simp
    · simp

/-- Claim C3, witness: the amended statement at a concrete one-line
chunk. -/
theorem sends_started_in_arrival_order_witness :
    chunkBurst "/mcp" (some "xyz") "\x7b\"id\":7\x7d\n"
      = ((splitLinesSSE ("\x7b\"id\":7\x7d\n" : String).data).1.map List.asString).filterMap
          (fun l => if jsTrim l = "" then none
                    else (jsonParse l).map (fun m => DispatchEv.sendStart (jsonStringify m))) :=
  sends_started_in_arrival_order "/mcp" "xyz" (by decide) "\x7b\"id\":7\x7d\n"

/-- Claim C4, counterexample: the valid SSE framing `data: "é"` followed
by a blank line, partitioned between the two bytes of é's UTF-8 encoding
(0xC3 0xA9).  Each chunk is decoded independently by chunk.toString()
(src/proxy.js:105), garbling é into two U+FFFD replacement characters, so
the chunked feed relays a different frame payload than the single-chunk
feed: the byte partition changes the emitted frame sequence. -/
theorem utf8_split_changes_frames_counterexample :
    feedChunkBytes ⟨[], ⟨none, none⟩⟩
        [0x64, 0x61, 0x74, 0x61, 0x3A, 0x20, 0x22, 0xC3, 0xA9, 0x22, 0x0A, 0x0A]
      = (⟨[], ⟨none, none⟩⟩, [OutEvent.stdoutWrite "\"é\"\n"]) ∧
    feedChunksBytes ⟨[], ⟨none, none⟩⟩
        [[0x64, 0x61, 0x74, 0x61, 0x3A, 0x20, 0x22, 0xC3], [0xA9, 0x22, 0x0A, 0x0A]]
      = (⟨[], ⟨none, none⟩⟩, [OutEvent.stdoutWrite "\"��\"\n"]) ∧
    feedChunksBytes ⟨[], ⟨none, none⟩⟩
        [[0x64, 0x61, 0x74, 0x61, 0x3A, 0x20, 0x22, 0xC3], [0xA9, 0x22, 0x0A, 0x0A]]
      ≠ feedChunkBytes ⟨[], ⟨none, none⟩⟩
          [0x64, 0x61, 0x74, 0x61, 0x3A, 0x20, 0x22, 0xC3, 0xA9, 0x22, 0x0A, 0x0A] := by
  decide

/-- Feeding byte chunks one at a time is the string-level feed of their
independent decodes. -/
theorem feedChunksBytes_eq_map (st : SSEState) (cs : List (List Nat)) :
    feedChunksBytes st cs = feedChunks st (cs.map utf8DecodeReplace) := by
  induction cs generalizing st with
  | nil => rfl
  | cons c cs ih => simp [feedChunksBytes, feedChunks, feedChunkBytes, ih]

/-- Claim C4, amended: feeding the byte chunks one at a time yields the
same final state and frame-effect sequence as feeding the whole byte
sequence as a single chunk for every partition whose per-chunk decodes
concatenate to the whole-stream decode — exactly the partitions whose
cut points do not fall inside a multi-byte UTF-8 character.  A partition
that splits a multi-byte character garbles it into U+FFFD replacement
characters and can change the emitted frames (see the counterexample). -/
theorem byte_chunking_invariance (st : SSEState) (cs : List (List Nat))
    (hb : ∀ c ∈ st.buffer, c ≠ '\n')
    (hclean : concatChunks (cs.map utf8DecodeReplace) = utf8DecodeReplace (concatBytes cs)) :
    feedChunksBytes st cs = feedChunkBytes st (concatBytes cs) := by
  rw [feedChunksBytes_eq_map, feedChunks_eq_feedChunk_concat st _ hb, hclean]
  rfl

/-- Claim C4, witness: the amended statement at a two-chunk partition of
the bytes of `data: é` plus a blank line, cut right after the multi-byte
character. -/
theorem byte_chunking_invariance_witness :
    feedChunksBytes ⟨[], ⟨none, none⟩⟩
        [[0x64, 0x61, 0x74, 0x61, 0x3A, 0x20, 0xC3, 0xA9], [0x0A, 0x0A]]
      = feedChunkBytes ⟨[], ⟨none, none⟩⟩
          (concatBytes [[0x64, 0x61, 0x74, 0x61, 0x3A, 0x20, 0xC3, 0xA9], [0x0A, 0x0A]]) :=
  byte_chunking_invariance ⟨[], ⟨none, none⟩⟩
    [[0x64, 0x61, 0x74, 0x61, 0x3A, 0x20, 0xC3, 0xA9], [0x0A, 0x0A]] (by decide) (by decide)

/-- Claim C5, counterexample: with pending event type message, the
complete line 'junk' — neither an event line, nor a data line, nor blank
— leaves the pending event type unchanged instead of resetting it: the
for-loop at src/proxy.js:109-145 has no branch for such a line. -/
theorem nonmatching_line_keeps_event_counterexample :
    handleLine ⟨some "message", none⟩ "junk" = (⟨some "message", none⟩, []) ∧
    (handleLine ⟨some "message", none⟩ "junk").1.currentEvent ≠ none := by
  decide

/-- Claim C5, amended: a data line emits according to the pending event
type — session capture and resolution for the endpoint event, relay of
the re-serialized message (or drop of the sentinel, or a diagnostic for a
malformed payload) for the message or absent event type, nothing for any
other pending type — and then resets the pending event type to absent; a
blank line resets it without emitting; but a non-empty line that is
neither an event line nor a data line leaves the pending event type
unchanged and emits nothing. -/
theorem data_line_resets_event_type (st : LineState) (d line : String)
    (h1 : jsStartsWith line ("event: ") = false)
    (h2 : jsStartsWith line ("data: ") = false) :
    ((handleLine st ("data: " ++ d)).1.currentEvent = none) ∧
    (st.currentEvent = some ("endpoint") →
      handleLine st ("data: " ++ d)
        = ({ currentEvent := none, sessionId := extractSessionId d },
           [OutEvent.logSession (extractSessionId d), OutEvent.resolve])) ∧
    ((st.currentEvent = some ("message") ∨ jsFalsyStr st.currentEvent = true) →
      (d ≠ "[DONE]" →
        handleLine st ("data: " ++ d) = ({ st with currentEvent := none }, relayedOutput d)) ∧
      handleLine st ("data: " ++ "[DONE]") = ({ st with currentEvent := none }, [])) ∧
    (st.currentEvent ≠ some ("endpoint") → st.currentEvent ≠ some ("message") →
      jsFalsyStr st.currentEvent = false →
      handleLine st ("data: " ++ d) = ({ st with currentEvent := none }, [])) ∧
    (line = "" → handleLine st line = ({ st with currentEvent := none }, [])) ∧
    (line ≠ "" → handleLine st line = (st, [])) := by
  refine ⟨?_, ?_, ?_, ?_, ?_, ?_⟩
  · by_cases h : st.currentEvent = some ("endpoint")
    · rw [handleLine_data_endpoint st d h]
    · rw [handleLine_data_not_endpoint st d h]
  · intro h
    exact handleLine_data_endpoint st d h
  · intro hmsg
    exact ⟨fun hd => handleLine_data_message st d hmsg hd, handleLine_data_done st hmsg⟩
  · intro hne hnm hnf
    exact handleLine_data_other_event st d hne hnm hnf
  · intro hb
    subst hb
    exact handleLine_blank st
  · intro hb
    exact handleLine_other st line h1 h2 hb

/-- Claim C5, witness: the amended statement at the pending event type
message, the data payload 7 and the non-matching line zz. -/
theorem data_line_resets_event_type_witness :
    ((handleLine ⟨some "message", some "s"⟩ ("data: " ++ "7")).1.currentEvent = none) ∧
    ((⟨some "message", some "s"⟩ : LineState).currentEvent = some ("endpoint") →
      handleLine ⟨some "message", some "s"⟩ ("data: " ++ "7")
        = ({ currentEvent := none, sessionId := extractSessionId "7" },
           [OutEvent.logSession (extractSessionId "7"), OutEvent.resolve])) ∧
    (((⟨some "message", some "s"⟩ : LineState).currentEvent = some ("message") ∨
        jsFalsyStr (⟨some "message", some "s"⟩ : LineState).currentEvent = true) →
      ("7" ≠ "[DONE]" →
        handleLine ⟨some "message", some "s"⟩ ("data: " ++ "7")
          = (⟨none, some "s"⟩, relayedOutput "7")) ∧
      handleLine ⟨some "message", some "s"⟩ ("data: " ++ "[DONE]") = (⟨none, some "s"⟩, [])) ∧
    ((⟨some "message", some "s"⟩ : LineState).currentEvent ≠ some ("endpoint") →
      (⟨some "message", some "s"⟩ : LineState).currentEvent ≠ some ("message") →
      jsFalsyStr (⟨some "message", some "s"⟩ : LineState).currentEvent = false →
      handleLine ⟨some "message", some "s"⟩ ("data: " ++ "7") = (⟨none, some "s"⟩, [])) ∧
    ("zz" = "" → handleLine ⟨some "message", some "s"⟩ "zz" = (⟨none, some "s"⟩, [])) ∧
    ("zz" ≠ "" → handleLine ⟨some "message", some "s"⟩ "zz"
      = (⟨some "message", some "s"⟩, [])) :=
  data_line_resets_event_type ⟨some "message", some "s"⟩ "7" "zz" (by decide) (by decide)

/-- Claim C6 (confirmed): feeding the endpoint handshake frame sets the
session id to abc123, after which sending the ping message issues an HTTP
POST to the configured path with query sessionId=abc123, Content-Type
application/json and the message's compact serialization (40 UTF-8 bytes)
as body, and the response handler resolves on any 2xx status. -/
theorem endpoint_handshake_then_send (pathname : String) (status : Nat) (respBody : String)
    (h2 : 200 ≤ status) (h3 : status < 300) :
    (feedChunk ⟨[], ⟨none, none⟩⟩ "event: endpoint\ndata: /sse?sessionId=abc123\n\n").1.ls.sessionId
      = some "abc123" ∧
    sendMessage pathname (some "abc123")
        (Json.obj [("jsonrpc", Json.str "2.0"), ("id", Json.num 1), ("method", Json.str "ping")])
      = SendAction.httpPost (pathname ++ "?sessionId=" ++ "abc123") ("application/json") 40
          "\x7b\"jsonrpc\":\"2.0\",\"id\":1,\"method\":\"ping\"\x7d" ∧
    sendResponseResult status respBody = Except.ok () := by
  refine ⟨by decide, rfl, ?_⟩
  simp [sendResponseResult, h2, h3]

/-- Claim C6, witness: the scenario at path /sse and status 204. -/
theorem endpoint_handshake_then_send_witness :
    (feedChunk ⟨[], ⟨none, none⟩⟩ "event: endpoint\ndata: /sse?sessionId=abc123\n\n").1.ls.sessionId
      = some "abc123" ∧
    sendMessage "/sse" (some "abc123")
        (Json.obj [("jsonrpc", Json.str "2.0"), ("id", Json.num 1), ("method", Json.str "ping")])
      = SendAction.httpPost ("/sse" ++ "?sessionId=" ++ "abc123") ("application/json") 40
          "\x7b\"jsonrpc\":\"2.0\",\"id\":1,\"method\":\"ping\"\x7d" ∧
    sendResponseResult 204 "" = Except.ok () :=
  endpoint_handshake_then_send "/sse" 204 "" (by decide) (by decide)

/-- Claim C7 (confirmed): a data line under event type message (or no
event type) whose payload is neither the [DONE] sentinel nor valid JSON
writes nothing to stdout, raises nothing (the handler is total), and
emits exactly one diagnostic log entry carrying at most the first 50
characters of the raw payload (src/proxy.js:126-138). -/
theorem malformed_sse_payload_logged (st : LineState) (d : String)
    (hmsg : st.currentEvent = some ("message") ∨ jsFalsyStr st.currentEvent = true)
    (hdone : d ≠ "[DONE]") (hbad : jsonParse d = none) :
    handleLine st ("data: " ++ d)
      = ({ st with currentEvent := none }, [OutEvent.logMalformed (jsSubstr d 50)]) := by
  have hne : st.currentEvent ≠ some ("endpoint") := by
    rcases hmsg with h | h
    · rw [h]
      simp
    · cases hs : st.currentEvent with
      | none => simp
      | some s =>
        rw [hs] at h
        simp only [jsFalsyStr, decide_eq_true_eq] at h
        subst h
        simp
  have hcond : (decide (st.currentEvent = some ("message")) || jsFalsyStr st.currentEvent)
      = true := by
    rcases hmsg with h | h
    · simp [h]
    · simp [h]
  simp [handleLine, jsStartsWith_data_not_event, jsStartsWith_data_self, jsSlice_data,
    hne, hcond, hdone, hbad]

/-- Claim C7, witness: the statement at pending event message and payload
'oops'. -/
theorem malformed_sse_payload_logged_witness :
    handleLine ⟨some "message", some "sid9"⟩ ("data: " ++ "oops")
      = (⟨none, some "sid9"⟩, [OutEvent.logMalformed (jsSubstr "oops" 50)]) :=
  malformed_sse_payload_logged ⟨some "message", some "sid9"⟩ "oops"
    (Or.inl (by decide)) (by decide) (by rfl)

/-- Claim C8, counterexample: a message whose id is 0 — a present,
well-formed JSON-RPC id — gets an error envelope whose id is null, not 0:
`parsedMessage.id || null` at src/proxy.js:198 replaces every falsy id. -/
theorem falsy_id_nulled_counterexample :
    dispatchLine (some "sid1") (SendOutcome.rejected "boom")
        "\x7b\"jsonrpc\":\"2.0\",\"id\":0,\"method\":\"ping\"\x7d"
      = [DOut.log ("Error processing message: boom"),
         DOut.out "\x7b\"jsonrpc\":\"2.0\",\"id\":null,\"error\":\x7b\"code\":-32603,\"message\":\"boom\"\x7d\x7d\n"] ∧
    jsonParse "\x7b\"jsonrpc\":\"2.0\",\"id\":0,\"method\":\"ping\"\x7d"
      = some (Json.obj [("jsonrpc", Json.str "2.0"), ("id", Json.num 0),
          ("method", Json.str "ping")]) :=
  ⟨by decide, rfl⟩

/-- Claim C8, amended: when a parsed line's send fails, the emitted
envelope's id equals the original message's id only when that id is
truthy; a falsy id (null, 0, empty string, false) is replaced by null. -/
theorem envelope_id_truthy_or_null (sid e line : String) (m v : Json)
    (hs : sid ≠ "") (hnb : jsTrim line ≠ "") (hm : jsonParse line = some m)
    (hid : jsonGet m "id" = some v) :
    dispatchLine (some sid) (SendOutcome.rejected e) line
      = [DOut.log ("Error processing message: " ++ e),
         DOut.out (jsonStringify (errorEnvelope (if jsTruthy v then v else Json.null) e)
           ++ "\n")] := by
  have hmid : messageIdOrNull m = if jsTruthy v then v else Json.null := by
    simp [messageIdOrNull, hid]
  simp [dispatchLine, hnb, hm, awaitSend, jsFalsyStr, hs, hmid]

/-- Claim C8, witness: the amended statement at a message with truthy
id 5. -/
theorem envelope_id_truthy_or_null_witness :
    dispatchLine (some "s1") (SendOutcome.rejected "err1") "\x7b\"id\":5\x7d"
      = [DOut.log ("Error processing message: " ++ "err1"),
         DOut.out (jsonStringify (errorEnvelope
             (if jsTruthy (Json.num 5) then Json.num 5 else Json.null) "err1") ++ "\n")] :=
  envelope_id_truthy_or_null "s1" "err1" "\x7b\"id\":5\x7d" (Json.obj [("id", Json.num 5)])
    (Json.num 5) (by decide) (by decide) (by rfl) (by rfl)

/-- Claim C9 (confirmed): an endpoint event whose data URL has no
sessionId parameter still resolves the connection promise — startup
proceeds — while the session id is assigned null, so every subsequent
send rejects with the no-active-session error. -/
theorem endpoint_without_sessionid (st : LineState) (d : String) (msg : Json)
    (pathname : String) (hep : st.currentEvent = some ("endpoint"))
    (hnone : extractSessionId d = none) :
    handleLine st ("data: " ++ d)
      = ({ currentEvent := none, sessionId := none },
         [OutEvent.logSession none, OutEvent.resolve]) ∧
    sendMessage pathname ((handleLine st ("data: " ++ d)).1.sessionId) msg
      = SendAction.rejectNoSession := by
  have h := handleLine_data_endpoint st d hep
  rw [hnone] at h
  refine ⟨h, ?_⟩
  rw [h]
  rfl

/-- Claim C9, witness: the statement at a data URL with no query. -/
theorem endpoint_without_sessionid_witness :
    handleLine ⟨some "endpoint", some "prev"⟩ ("data: " ++ "/sse")
      = ({ currentEvent := none, sessionId := none },
         [OutEvent.logSession none, OutEvent.resolve]) ∧
    sendMessage "/sse" ((handleLine ⟨some "endpoint", some "prev"⟩ ("data: " ++ "/sse")).1.sessionId)
        Json.null
      = SendAction.rejectNoSession :=
  endpoint_without_sessionid ⟨some "endpoint", some "prev"⟩ "/sse" Json.null "/sse"
    (by decide) (by decide)

/-- Claim C10 (confirmed): the session id is written only by
endpoint-event data lines — which overwrite it with the sessionId
parameter of that event's data URL, so it always reflects the most recent
endpoint event — and by the stream-end and stream-error handlers, which
set it absent; every other line leaves it unchanged, and no other
modelled operation writes it. -/
theorem session_id_write_discipline (st : LineState) (line d : String)
    (hnd : jsStartsWith line ("data: ") = false) :
    ((handleLine st line).1.sessionId = st.sessionId) ∧
    (st.currentEvent = some ("endpoint") →
      (handleLine st ("data: " ++ d)).1.sessionId = extractSessionId d) ∧
    (st.currentEvent ≠ some ("endpoint") →
      (handleLine st ("data: " ++ d)).1.sessionId = st.sessionId) ∧
    (onStreamEnd st).sessionId = none ∧
    (onStreamError st).sessionId = none := by
  refine ⟨?_, ?_, ?_, rfl, rfl⟩
  · by_cases h1 : jsStartsWith line ("event: ") = true
    · rw [handleLine_event st line h1]
    · by_cases h3 : line = ""
      · subst h3
        rw [handleLine_blank st]
      · rw [handleLine_other st line (by simpa using h1) hnd h3]
  · intro h
    rw [handleLine_data_endpoint st d h]
  · intro h
    rw [handleLine_data_not_endpoint st d h]

/-- Claim C10, witness: the statement at a concrete endpoint state, an
event line and a data URL. -/
theorem session_id_write_discipline_witness :
    ((handleLine ⟨some "endpoint", some "prev2"⟩ "event: message").1.sessionId = some "prev2") ∧
    ((⟨some "endpoint", some "prev2"⟩ : LineState).currentEvent = some ("endpoint") →
      (handleLine ⟨some "endpoint", some "prev2"⟩ ("data: " ++ "/a?sessionId=zzz")).1.sessionId
        = extractSessionId "/a?sessionId=zzz") ∧
    ((⟨some "endpoint", some "prev2"⟩ : LineState).currentEvent ≠ some ("endpoint") →
      (handleLine ⟨some "endpoint", some "prev2"⟩ ("data: " ++ "/a?sessionId=zzz")).1.sessionId
        = some "prev2") ∧
    (onStreamEnd ⟨some "endpoint", some "prev2"⟩).sessionId = none ∧
    (onStreamError ⟨some "endpoint", some "prev2"⟩).sessionId = none :=
  session_id_write_discipline ⟨some "endpoint", some "prev2"⟩ "event: message"
    "/a?sessionId=zzz" (by decide)
